import Mathlib

/-!
Verification of the time-series query/aggregation layer of the air-quality
API (`api/aqi_routes.py`), shallowly embedded in Lean.

Conventions of the embedding:
* store instants are seconds (as `ℤ`) on a fixed UTC epoch, matching the UTC
  timestamps the time-series store returns;
* numeric store values are `ℚ` together with the non-finite / absent /
  non-numeric shapes the Python code distinguishes (`RawValue`);
* a `strftime` label is represented by the quantity that determines it and
  is determined by it: the epoch day for a `"%Y-%m-%d"` label, the minute of
  the day for an `"%H:%M"` label (lexicographic order on those fixed-width
  label strings agrees with the numeric order of the representative);
* an HTTP error response is an `ErrResp` (status code, message) on the
  `Except` error side; a success envelope is a structure on the `ok` side.
-/

deriving instance DecidableEq for Except

namespace AqiRoutes

/-- A `_value` attached to a record returned by the time-series store, as the
Python code distinguishes them: a missing value, the three non-finite floats,
a finite number (`int`/`float`), or a non-numeric object (anything on which
`float(...)` raises and which fails `isinstance(value, (int, float))`). -/
inductive RawValue
  | absent
  | nan
  | inf
  | ninf
  | num (q : ℚ)
  | nonNumeric
deriving DecidableEq

/-- Result of Python `float(...)` arithmetic: a finite rational or one of the
non-finite floats. -/
inductive PyFloat
  | finite (q : ℚ)
  | nan
  | inf
  | ninf
deriving DecidableEq

/-- Python `round(x, 2)` on a finite value: round to the nearest hundredth
(ties, which no claim exercises, are modelled as rounding up). -/
def round2 (q : ℚ) : ℚ := (⌊100 * q + 1 / 2⌋ : ℚ) / 100

/-- The sanitisation block shared verbatim by `get_daily_summary_24h`
(lines 323-329), `get_hourly_summary` (lines 397-403) and `get_graph_data`
(lines 494-500): a missing or non-numeric value, `nan`, `inf`, `-inf`
(string-compared case-insensitively) and every negative value become `0.0`;
anything else is rounded to two decimals. -/
def sanitize : RawValue → ℚ
  | .absent => 0
  | .nonNumeric => 0
  | .nan => 0
  | .inf => 0
  | .ninf => 0
  | .num q => if q < 0 then 0 else round2 q

/-- The flat-list value conversion of `process_aggregated_query` (line 110):
`round(float(record.values.get("_value", 0)), 2)`.  A missing value defaults
to `0`, `float()` raises on a non-numeric value, and `round` passes the
non-finite floats through unchanged.  There is no negativity/NaN/Inf clamp
on this path. -/
def flatValue : RawValue → Except Unit PyFloat
  | .absent => .ok (.finite 0)
  | .nan => .ok .nan
  | .inf => .ok .inf
  | .ninf => .ok .ninf
  | .num q => .ok (.finite (round2 q))
  | .nonNumeric => .error ()

/-- One record of a store result table: `{_field, _value, _time}`; `time` is
in seconds on the fixed UTC epoch. -/
structure Rec where
  field : String
  value : RawValue
  time : ℤ
deriving DecidableEq

/-- Asia/Bangkok is UTC+07:00, i.e. 25200 seconds. -/
def bangkokOffset : ℤ := 25200

/-- An HTTP error response: status code and envelope message. -/
structure ErrResp where
  code : ℕ
  message : String
deriving DecidableEq

/-- One element of the flat-list `data` array; `timestamp` is the instant
whose civil fields the `astimezone(Asia/Bangkok).isoformat()` string
displays. -/
structure FlatPoint where
  field : String
  value : PyFloat
  timestamp : ℤ
deriving DecidableEq

/-- One iteration of the record loop of `process_aggregated_query`
(lines 106-113). -/
def flatPoint (r : Rec) : Except Unit FlatPoint :=
  match flatValue r.value with
  | .error e => .error e
  | .ok v => .ok ⟨r.field, v, r.time + bangkokOffset⟩

/-- Success envelope of `process_aggregated_query` (status is always `1`). -/
structure FlatResponse where
  status : ℕ
  message : String
  data : List FlatPoint
  node_name : String
  period : String
  count : ℕ
  timezone : String
deriving DecidableEq

/-- The 500 envelope produced by the outer `except Exception` of
`process_aggregated_query` (lines 138-146); the `str(e)` suffix of the
message is elided. -/
def serverErr : ErrResp := ⟨500, "เกิดข้อผิดพลาดในการดึงข้อมูล"⟩

/-- The record loop of `process_aggregated_query`: one output point per
record; a `float()` failure aborts the whole request with the 500
envelope. -/
def flatData : List Rec → Except ErrResp (List FlatPoint)
  | [] => .ok []
  | r :: rs =>
    match flatPoint r with
    | .error _ => .error serverErr
    | .ok p =>
      match flatData rs with
      | .error e => .error e
      | .ok ps => .ok (p :: ps)

/-- `process_aggregated_query` (lines 100-146): build the flat list, raise
404 when it is empty, otherwise return the status-1 envelope.  The inner 404
`HTTPException` survives the handlers because `except HTTPException` re-raises
it before `except Exception` runs. -/
def processAggregatedQuery (period node_name : String) (recs : List Rec) :
    Except ErrResp FlatResponse :=
  match flatData recs with
  | .error e => .error e
  | .ok data =>
    if data.isEmpty then
      .error ⟨404, "ไม่พบข้อมูลสำหรับช่วงเวลา " ++ period⟩
    else
      .ok ⟨1, "ดึงข้อมูล " ++ period ++ " สำเร็จ", data, node_name, period,
        data.length, "Asia/Bangkok"⟩

/-- Epoch day of an instant: the content of a `"%Y-%m-%d"` label formatted
in UTC (the civil date is a bijective function of this number). -/
def utcDay (t : ℤ) : ℤ := Int.fdiv t 86400

/-- Minute of the UTC day of an instant: the content of an `"%H:%M"` label
formatted in UTC. -/
def utcMinuteOfDay (t : ℤ) : ℤ := Int.fdiv (t % 86400) 60

/-- Graph summary statistics (`metadata.statistics`). -/
structure Stats where
  min : ℚ
  max : ℚ
  avg : ℚ
  count : ℕ
deriving DecidableEq

/-- Python `min(list)` on a nonempty list (junk value `0` on `[]`). -/
def listMin : List ℚ → ℚ
  | [] => 0
  | x :: xs => xs.foldl Min.min x

/-- Python `max(list)` on a nonempty list (junk value `0` on `[]`). -/
def listMax : List ℚ → ℚ
  | [] => 0
  | x :: xs => xs.foldl Max.max x

/-- Statistics of `get_graph_data` (lines 516-526): keep the values strictly
greater than `0`; if any remain take rounded min/max/mean and the count,
otherwise all-zero statistics. -/
def graphStats (vals : List ℚ) : Stats :=
  match vals.filter (fun v => decide (0 < v)) with
  | [] => ⟨0, 0, 0, 0⟩
  | v :: vs =>
    ⟨round2 (listMin (v :: vs)), round2 (listMax (v :: vs)),
      round2 ((v :: vs).sum / ((v :: vs).length : ℚ)), (v :: vs).length⟩

/-- The `time` label of a graph point (lines 502-507): `"%H:%M"` in UTC for
the 24h range, `"%m-%d"` in UTC otherwise (represented by minute of day
resp. epoch day, which determine those labels given the window). -/
def graphTimeLabel (time_range : String) (t : ℤ) : ℤ :=
  if time_range = "24h" then utcMinuteOfDay t else utcDay t

/-- The `datetime` string of a graph point: full UTC stamp (identified with
the instant) for 24h, the UTC date otherwise. -/
def graphDatetime (time_range : String) (t : ℤ) : ℤ :=
  if time_range = "24h" then t else utcDay t

/-- One element of the graph `data` array. -/
structure GPoint where
  time : ℤ
  datetime : ℤ
  value : ℚ
  timestamp : ℤ
deriving DecidableEq

/-- One iteration of the record loop of `get_graph_data` (lines 489-514). -/
def graphPoint (time_range : String) (r : Rec) : GPoint :=
  ⟨graphTimeLabel time_range r.time, graphDatetime time_range r.time,
    sanitize r.value, r.time⟩

def valid_time_ranges : List String := ["24h", "7d", "30d"]

def valid_data_types : List String :=
  ["AQI", "PM1", "PM2_5", "PM4", "PM10", "CO2", "temperature", "humidity"]

/-- Success envelope of `get_graph_data` (data plus metadata). -/
structure GraphResp where
  status : ℕ
  message : String
  data : List GPoint
  node_name : String
  time_range : String
  data_type : String
  window : String
  measurement : String
  total_points : ℕ
  statistics : Stats
deriving DecidableEq

/-- `get_graph_data` (lines 439-546): validate `time_range` and `data_type`
(400 on failure), pick window/measurement, sanitise and label every record,
compute the statistics over the strictly positive values, and always return
a status-1 envelope — there is no empty-result 404 on this path. -/
def getGraphData (node_name time_range data_type : String) (recs : List Rec) :
    Except ErrResp GraphResp :=
  if time_range ∉ valid_time_ranges then
    .error ⟨400, "time_range ต้องเป็น [24h, 7d, 30d]"⟩
  else if data_type ∉ valid_data_types then
    .error ⟨400,
      "data_type ต้องเป็น [AQI, PM1, PM2_5, PM4, PM10, CO2, temperature, humidity]"⟩
  else
    let graph_data := recs.map (graphPoint time_range)
    .ok ⟨1, "ดึงข้อมูลกราฟ " ++ data_type ++ " สำหรับ " ++ time_range ++ " สำเร็จ",
      graph_data, node_name, time_range, data_type,
      (if time_range = "24h" then "1h" else "1d"),
      (if time_range = "24h" then "AirQualitySummary" else "AirQualitySummary24h"),
      graph_data.length, graphStats (graph_data.map GPoint.value)⟩

/-! ### Per-day / per-hour summary normalisation

`get_daily_summary_24h` (lines 313-344) and `get_hourly_summary`
(lines 382-419) share the same shape: group records into a dict keyed by a
label derived from `record.get_time()`, assign `field -> sanitised value`
into the group's dict (last write wins), then emit one output row per label
in `sorted(keys)` order, reading each of the eight canonical fields with
`.get(field, 0.0)`.  The group dict is modelled as an association list in
insertion order (Python dicts preserve it); the `date` / `time` / `datetime`
bookkeeping entries are kept outside the field map. -/

abbrev Row := List (String × ℚ)

/-- `group[field] = v` on a Python dict: replace an existing binding in
place, otherwise append. -/
def setField (row : Row) (f : String) (v : ℚ) : Row :=
  if row.any (fun p => p.1 == f) then
    row.map (fun p => if p.1 == f then (f, v) else p)
  else row ++ [(f, v)]

/-- `group.get(field, 0.0)`. -/
def getField (row : Row) (f : String) : ℚ :=
  match row.find? (fun p => p.1 == f) with
  | some p => p.2
  | none => 0

abbrev Table := List (ℤ × Row)

/-- `daily_data[label]` (with `[]` as junk when the key is absent). -/
def lookupRow (t : Table) (k : ℤ) : Row :=
  match t.find? (fun p => p.1 == k) with
  | some p => p.2
  | none => []

/-- One iteration of the grouping loop: create the group of the record's
label if it is new, then assign the sanitised value under the record's
field. -/
def upsertRec (labelOf : Rec → ℤ) (acc : Table) (r : Rec) : Table :=
  if acc.any (fun p => p.1 == labelOf r) then
    acc.map (fun p =>
      if p.1 == labelOf r then (labelOf r, setField p.2 r.field (sanitize r.value))
      else p)
  else acc ++ [(labelOf r, setField [] r.field (sanitize r.value))]

/-- The grouping loop over all records of the store result. -/
def buildSummary (labelOf : Rec → ℤ) (recs : List Rec) : Table :=
  recs.foldl (upsertRec labelOf) []

/-- The fixed field order of every emitted summary row (lines 334-344 and
408-419). -/
def canonicalFields : List String :=
  ["AQI", "PM1", "PM2_5", "PM4", "PM10", "CO2", "temperature", "humidity"]

/-- One emitted summary row: its label and the field/value pairs in emission
order. -/
structure SummaryRow where
  label : ℤ
  fields : List (String × ℚ)
deriving DecidableEq

/-- Emission of one row: the eight canonical fields, each read with
`.get(field, 0.0)` from the group of label `k`. -/
def mkSummaryRow (t : Table) (k : ℤ) : SummaryRow :=
  ⟨k, canonicalFields.map (fun f => (f, getField (lookupRow t k) f))⟩

/-- The full normalisation: group, then emit one row per label in
`sorted(keys)` order. -/
def summaryRows (labelOf : Rec → ℤ) (recs : List Rec) : List SummaryRow :=
  (List.insertionSort (· ≤ ·) ((buildSummary labelOf recs).map Prod.fst)).map
    (mkSummaryRow (buildSummary labelOf recs))

/-- Label of `get_daily_summary_24h`: `strftime("%Y-%m-%d")` in UTC. -/
def dailyLabel (r : Rec) : ℤ := utcDay r.time

/-- Label of `get_hourly_summary`: `strftime("%H:%M")` in UTC. -/
def hourlyLabel (r : Rec) : ℤ := utcMinuteOfDay r.time

def dailySummaryRows (recs : List Rec) : List SummaryRow :=
  summaryRows dailyLabel recs

def hourlySummaryRows (recs : List Rec) : List SummaryRow :=
  summaryRows hourlyLabel recs

/-! ### Calendar arithmetic for the absolute month/date windows -/

/-- Gregorian leap year, as `calendar`/`datetime` determine month lengths. -/
def isLeap (y : ℕ) : Bool :=
  ((y % 4 == 0) && (y % 100 != 0)) || (y % 400 == 0)

def daysInMonth (y m : ℕ) : ℕ :=
  match m with
  | 1 => 31
  | 2 => if isLeap y then 29 else 28
  | 3 => 31
  | 4 => 30
  | 5 => 31
  | 6 => 30
  | 7 => 31
  | 8 => 31
  | 9 => 30
  | 10 => 31
  | 11 => 30
  | 12 => 31
  | _ => 0

/-- Days of year `y` strictly before month `m`. -/
def daysBeforeMonth (y m : ℕ) : ℕ :=
  let c : ℕ := if isLeap y then 1 else 0
  match m with
  | 1 => 0
  | 2 => 31
  | 3 => 59 + c
  | 4 => 90 + c
  | 5 => 120 + c
  | 6 => 151 + c
  | 7 => 181 + c
  | 8 => 212 + c
  | 9 => 243 + c
  | 10 => 273 + c
  | 11 => 304 + c
  | 12 => 334 + c
  | _ => 0

/-- Days strictly before January 1 of year `y` in the proleptic Gregorian
calendar, counted from year 1 (`y ≥ 1`). -/
def daysBeforeYear (y : ℕ) : ℕ :=
  365 * (y - 1) + (y - 1) / 4 - (y - 1) / 100 + (y - 1) / 400

/-- Seconds on the calendar axis of civil time `y-m-d h:mi:s` (the origin is
`0001-01-01 00:00:00`; the `datetime` objects of the endpoints get a `Z`
appended, so this axis is UTC). -/
def toSecs (y m d h mi s : ℕ) : ℤ :=
  ((daysBeforeYear y : ℤ) + (daysBeforeMonth y m : ℤ) + (d : ℤ) - 1) * 86400
    + (h : ℤ) * 3600 + (mi : ℤ) * 60 + (s : ℤ)

/-- `start_date = datetime(year, mon, 1)` of `get_daily_summary_24h`
(line 299). -/
def monthStart (y m : ℕ) : ℤ := toSecs y m 1 0 0 0

/-- `end_date` of `get_daily_summary_24h` (lines 300-303): first instant of
the next month minus one second, rolling December into January of the next
year. -/
def monthStop (y m : ℕ) : ℤ :=
  if m = 12 then toSecs (y + 1) 1 1 0 0 0 - 1
  else toSecs y (m + 1) 1 0 0 0 - 1

/-- The UTC range bounds `get_daily_summary_24h` passes to the store
(line 307: the naive datetimes get a literal `Z` suffix). -/
def dailyQueryRange (y m : ℕ) : ℤ × ℤ := (monthStart y m, monthStop y m)

/-- `start_date = date_obj` of `get_hourly_summary` (line 371). -/
def dateStart (y m d : ℕ) : ℤ := toSecs y m d 0 0 0

/-- `end_date = date_obj + timedelta(days=1) - timedelta(seconds=1)`
(line 372). -/
def dateStop (y m d : ℕ) : ℤ := dateStart y m d + 86400 - 1

/-! ### Date-string parsing (`strptime(date, "%Y-%m-%d")`) -/

/-- `str.split`-style split of a character list on `-`. -/
def splitDash : List Char → List (List Char)
  | [] => [[]]
  | c :: cs =>
    if c = '-' then [] :: splitDash cs
    else
      match splitDash cs with
      | [] => [[c]]
      | g :: gs => (c :: g) :: gs

/-- Numeric value of a digit string. -/
def digitsToNat (cs : List Char) : ℕ :=
  cs.foldl (fun n c => 10 * n + (c.toNat - 48)) 0

/-- The calendar validity `datetime(y, m, d)` enforces (`MINYEAR = 1`,
`MAXYEAR = 9999`). -/
def validDate (y m d : ℕ) : Bool :=
  decide (1 ≤ y) && decide (y ≤ 9999) && decide (1 ≤ m) && decide (m ≤ 12)
    && decide (1 ≤ d) && decide (d ≤ daysInMonth y m)

/-- `datetime.strptime(date, "%Y-%m-%d")` (line 370): exactly three
dash-separated all-digit components — a four-digit year and one-or-two-digit
month and day — denoting a real calendar date; on any other string
`strptime`/`datetime` raise `ValueError`. -/
def parseDate (s : String) : Option (ℕ × ℕ × ℕ) :=
  match splitDash s.data with
  | [ys, ms, ds] =>
    if (ys.length == 4) && ys.all Char.isDigit
        && (1 ≤ ms.length && ms.length ≤ 2 : Bool) && ms.all Char.isDigit
        && (1 ≤ ds.length && ds.length ≤ 2 : Bool) && ds.all Char.isDigit then
      let y := digitsToNat ys
      let m := digitsToNat ms
      let d := digitsToNat ds
      if validDate y m d then some (y, m, d) else none
    else none
  | _ => none

/-- The 400 envelope of the `except ValueError` branch of
`get_hourly_summary` (lines 431-435). -/
def hourlyDateError : ErrResp :=
  ⟨400, "รูปแบบวันที่ไม่ถูกต้อง ใช้ YYYY-MM-DD"⟩

/-- Success envelope of `get_hourly_summary`. -/
structure HourlyResp where
  status : ℕ
  message : String
  data : List SummaryRow
  node_name : String
  date : String
  total_hours : ℕ
deriving DecidableEq

/-- `get_hourly_summary` (lines 359-437): parse the date (400 via
`except ValueError` on failure), then normalise the store result for the
resolved window into hourly rows and return the status-1 envelope. -/
def getHourlySummary (node_name date : String) (recs : List Rec) :
    Except ErrResp HourlyResp :=
  match parseDate date with
  | none => .error hourlyDateError
  | some _ =>
    .ok ⟨1, "ดึงข้อมูลสรุปรายชั่วโมงสำเร็จ", hourlySummaryRows recs, node_name,
      date, (hourlySummaryRows recs).length⟩

/-! ### Access guard (`verify_node_token`) -/

/-- The columns of `Nodes` that `verify_node_token` touches. -/
structure NodeRec where
  node_name : String
  node_token : String
deriving DecidableEq

/-- `verify_node_token` (lines 44-79).  The missing-token 401 is raised
before the `try`.  The 404 (unknown name, or unknown token when the name is
omitted) and the 403 (name found but token mismatch) are raised inside the
`try`, whose own `except Exception` catches them — `HTTPException` is an
`Exception` subclass — and replaces them with a 500 "Token verification
error" (the `str(e)` suffix of that message is elided here). -/
def verify_node_token (node_name : Option String) (node_token : Option String)
    (db : List NodeRec) : Except ErrResp NodeRec :=
  match node_token with
  | none => .error ⟨401, "Node token is required"⟩
  | some tok =>
    let inner : Except ErrResp NodeRec :=
      match node_name with
      | some nm =>
        match db.find? (fun n => n.node_name == nm) with
        | none => .error ⟨404, "Node not found or invalid token"⟩
        | some node =>
          if node.node_token ≠ tok then .error ⟨403, "Invalid node token"⟩
          else .ok node
      | none =>
        match db.find? (fun n => n.node_token == tok) with
        | none => .error ⟨404, "Node not found or invalid token"⟩
        | some node => .ok node
    match inner with
    | .ok node => .ok node
    | .error _ => .error ⟨500, "Token verification error"⟩

/-! ### Arithmetic facts about the sanitiser -/

lemma round2_nonneg {q : ℚ} (h : 0 ≤ q) : 0 ≤ round2 q := by
  have h2 : (0 : ℤ) ≤ ⌊100 * q + 1 / 2⌋ := by
    rw [Int.le_floor]
    push_cast
    linarith
  unfold round2
  exact div_nonneg (by exact_mod_cast h2) (by norm_num)

lemma sanitize_nonneg (v : RawValue) : 0 ≤ sanitize v := by
  cases v with
  | num q =>
    by_cases h : q < 0
    · simp [sanitize, if_pos h]
    · simp only [sanitize, if_neg h]
      exact round2_nonneg (le_of_not_lt h)
  | absent => exact le_refl 0
  | nan => exact le_refl 0
  | inf => exact le_refl 0
  | ninf => exact le_refl 0
  | nonNumeric => exact le_refl 0

lemma sanitize_hundredths (v : RawValue) : ∃ n : ℤ, sanitize v = (n : ℚ) / 100 := by
  cases v with
  | num q =>
    by_cases h : q < 0
    · exact ⟨0, by simp [sanitize, if_pos h]⟩
    · exact ⟨⌊100 * q + 1 / 2⌋, by simp [sanitize, if_neg h, round2]⟩
  | absent => exact ⟨0, by norm_num [sanitize]⟩
  | nan => exact ⟨0, by norm_num [sanitize]⟩
  | inf => exact ⟨0, by norm_num [sanitize]⟩
  | ninf => exact ⟨0, by norm_num [sanitize]⟩
  | nonNumeric => exact ⟨0, by norm_num [sanitize]⟩

/-! ### Graph statistics -/

lemma graphStats_congr_filter (vals : List ℚ) :
    graphStats vals = graphStats (vals.filter (fun v => decide (0 < v))) := by
  have h : (vals.filter (fun v => decide (0 < v))).filter (fun v => decide (0 < v)) =
      vals.filter (fun v => decide (0 < v)) := by
    rw [List.filter_filter]
    simp only [Bool.and_self]
  unfold graphStats
  rw [h]

lemma graphStats_count (vals : List ℚ) :
    (graphStats vals).count = (vals.filter (fun v => decide (0 < v))).length := by
  cases h : vals.filter (fun v => decide (0 < v)) with
  | nil => simp [graphStats, h]
  | cons v vs => simp [graphStats, h]

lemma graphStats_zero {vals : List ℚ} (h : ∀ v ∈ vals, ¬ 0 < v) :
    graphStats vals = ⟨0, 0, 0, 0⟩ := by
  have hf : vals.filter (fun v => decide (0 < v)) = [] :=
    List.filter_eq_nil_iff.mpr (by simpa using h)
  simp [graphStats, hf]

/-! ### The graph endpoint -/

lemma getGraphData_eq (node tr dt : String) (recs : List Rec)
    (h1 : tr ∈ valid_time_ranges) (h2 : dt ∈ valid_data_types) :
    getGraphData node tr dt recs =
      .ok ⟨1, "ดึงข้อมูลกราฟ " ++ dt ++ " สำหรับ " ++ tr ++ " สำเร็จ",
        recs.map (graphPoint tr), node, tr, dt,
        (if tr = "24h" then "1h" else "1d"),
        (if tr = "24h" then "AirQualitySummary" else "AirQualitySummary24h"),
        (recs.map (graphPoint tr)).length,
        graphStats ((recs.map (graphPoint tr)).map GPoint.value)⟩ := by
  unfold getGraphData
  rw [if_neg (not_not_intro h1), if_neg (not_not_intro h2)]

lemma getGraphData_error_code (node tr dt : String) (recs : List Rec) (e : ErrResp)
    (h : getGraphData node tr dt recs = .error e) : e.code = 400 := by
  unfold getGraphData at h
  split_ifs at h with h1 h2
  · injection h with h3
    rw [← h3]
  · injection h with h3
    rw [← h3]

/-! ### The flat-list pipeline -/

lemma flatPoint_ok {r : Rec} (h : r.value ≠ RawValue.nonNumeric) :
    ∃ p, flatPoint r = .ok p := by
  unfold flatPoint
  cases hv : r.value with
  | nonNumeric => exact absurd hv h
  | absent => exact ⟨_, rfl⟩
  | nan => exact ⟨_, rfl⟩
  | inf => exact ⟨_, rfl⟩
  | ninf => exact ⟨_, rfl⟩
  | num q => exact ⟨_, rfl⟩

lemma flatData_ok {recs : List Rec} (h : ∀ r ∈ recs, r.value ≠ RawValue.nonNumeric) :
    ∃ ps, flatData recs = .ok ps ∧ ps.length = recs.length := by
  induction recs with
  | nil => exact ⟨[], rfl, rfl⟩
  | cons r rs ih =>
    obtain ⟨p, hp⟩ := flatPoint_ok (h r (by simp))
    obtain ⟨ps, hps, hlen⟩ := ih (fun x hx => h x (by simp [hx]))
    refine ⟨p :: ps, ?_, by simp [hlen]⟩
    simp [flatData, hp, hps]

lemma processAggregatedQuery_nil (period node : String) :
    processAggregatedQuery period node [] =
      .error ⟨404, "ไม่พบข้อมูลสำหรับช่วงเวลา " ++ period⟩ := rfl

lemma processAggregatedQuery_ok_of (period node : String) (recs : List Rec)
    (hne : recs ≠ []) (h : ∀ r ∈ recs, r.value ≠ RawValue.nonNumeric) :
    ∃ resp, processAggregatedQuery period node recs = .ok resp ∧
      resp.status = 1 ∧ resp.data.length = recs.length := by
  obtain ⟨ps, hps, hlen⟩ := flatData_ok h
  have hpsne : ps ≠ [] := by
    intro hnil
    subst hnil
    exact hne (List.eq_nil_of_length_eq_zero hlen.symm)
  have hpe : ps.isEmpty = false := List.isEmpty_eq_false.mpr hpsne
  refine ⟨⟨1, "ดึงข้อมูล " ++ period ++ " สำเร็จ", ps, node, period, ps.length,
    "Asia/Bangkok"⟩, ?_, rfl, hlen⟩
  unfold processAggregatedQuery
  rw [hps]
  simp [hpe]

lemma processAggregatedQuery_ok_inv (period node : String) (recs : List Rec)
    (resp : FlatResponse) (h : processAggregatedQuery period node recs = .ok resp) :
    resp.status = 1 ∧ resp.data ≠ [] := by
  unfold processAggregatedQuery at h
  split at h
  · exact Except.noConfusion h
  · split at h
    · exact Except.noConfusion h
    · injection h with h2
      rw [← h2]
      refine ⟨rfl, ?_⟩
      rename_i hde
      simpa [List.isEmpty_iff] using hde

/-! ### Claims C1-C5 and C10 -/

/-- C1 counterexample: the flat-list window query does NOT apply the
sanitisation rule — a stored value of `-5` is emitted as `-5` (only rounded),
whereas the sanitiser maps it to `0`; so the emitted value differs from the
sanitised raw value on this path. -/
theorem claim1_counterexample :
    processAggregatedQuery "1h" "node1" [⟨"PM1", RawValue.num (-5), 0⟩] =
      .ok ⟨1, "ดึงข้อมูล 1h สำเร็จ", [⟨"PM1", PyFloat.finite (round2 (-5)), 25200⟩],
        "node1", "1h", 1, "Asia/Bangkok"⟩ ∧
    round2 (-5) = -5 ∧
    sanitize (RawValue.num (-5)) = 0 ∧
    PyFloat.finite (round2 (-5)) ≠ PyFloat.finite (sanitize (RawValue.num (-5))) := by
  have h1 : round2 (-5) = -5 := by norm_num [round2]
  have h2 : sanitize (RawValue.num (-5)) = 0 := by norm_num [sanitize]
  refine ⟨rfl, h1, h2, ?_⟩
  intro hc
  rw [h1, h2] at hc
  exact absurd (PyFloat.finite.inj hc) (by norm_num)

/-- C1 (amended): the daily/hourly/graph paths all apply the full sanitiser,
and on those paths every emitted cell is `sanitize` of the raw value; the
flat-list path instead emits `round(float(raw or 0), 2)` with no
negative/NaN/Inf clamp — it agrees with the sanitiser on absent and
non-negative finite values and diverges on negative, NaN, Inf and
non-numeric values. -/
theorem claim1_amended :
    (∀ q : ℚ, 0 ≤ q → flatValue (.num q) = .ok (.finite (sanitize (.num q)))) ∧
    flatValue .absent = .ok (.finite (sanitize .absent)) ∧
    (∀ q : ℚ, q < 0 → flatValue (.num q) = .ok (.finite (round2 q)) ∧
      sanitize (.num q) = 0) ∧
    flatValue .nan = .ok .nan ∧ flatValue .inf = .ok .inf ∧
    flatValue .ninf = .ok .ninf ∧ flatValue .nonNumeric = .error () ∧
    (∀ (recs : List Rec) (tr : String),
      (recs.map (graphPoint tr)).map GPoint.value =
        recs.map fun r => sanitize r.value) := by
  refine ⟨?_, rfl, ?_, rfl, rfl, rfl, rfl, ?_⟩
  · intro q h
    simp [flatValue, sanitize, if_neg (not_lt.mpr h)]
  · intro q h
    exact ⟨rfl, by simp [sanitize, if_pos h]⟩
  · intro recs tr
    simp [List.map_map, graphPoint, Function.comp]

/-- C1 amended, witness at `q = 3` and `q = -5`. -/
theorem claim1_amended_witness :
    (0 : ℚ) ≤ 3 ∧ flatValue (.num 3) = .ok (.finite (sanitize (.num 3))) ∧
    (-5 : ℚ) < 0 ∧ sanitize (.num (-5)) = 0 :=
  ⟨by norm_num, claim1_amended.1 3 (by norm_num), by norm_num,
    (claim1_amended.2.2.1 (-5) (by norm_num)).2⟩

/-- C2: what `verify_node_token` actually does.  A missing token does yield
the 401; but a known name with a mismatching token and an unknown name both
yield the 500 "Token verification error" envelope — not the 403/404 the
code's own (unreachable) `HTTPException`s spell out — because the `try`
block's `except Exception` catches those `HTTPException`s.  Token-only
lookup with a known token still succeeds. -/
theorem claim2_code_behavior :
    verify_node_token (some "n1") none [⟨"n1", "secret"⟩] =
      .error ⟨401, "Node token is required"⟩ ∧
    verify_node_token (some "n1") (some "wrong") [⟨"n1", "secret"⟩] =
      .error ⟨500, "Token verification error"⟩ ∧
    verify_node_token (some "ghost") (some "secret") [⟨"n1", "secret"⟩] =
      .error ⟨500, "Token verification error"⟩ ∧
    verify_node_token none (some "secret") [⟨"n1", "secret"⟩] = .ok ⟨"n1", "secret"⟩ :=
  ⟨by decide, by decide, by decide, by decide⟩

/-- C3: graph statistics are a function of exactly the strictly positive
point values — filtering to the positive values first changes nothing, the
count is the number of positive values, and on `[0, 5, 10]` the statistics
are min 5, max 10, avg 7.5, count 2. -/
theorem claim3_graph_stats :
    (∀ vals : List ℚ,
      graphStats vals = graphStats (vals.filter (fun v => decide (0 < v)))) ∧
    (∀ vals : List ℚ,
      (graphStats vals).count = (vals.filter (fun v => decide (0 < v))).length) ∧
    graphStats [0, 5, 10] = ⟨5, 10, 15 / 2, 2⟩ := by
  refine ⟨graphStats_congr_filter, graphStats_count, ?_⟩
  have hf : ([0, 5, 10] : List ℚ).filter (fun v => decide (0 < v)) = [5, 10] := by
    norm_num [List.filter]
  have hmin : ((5 : ℚ) ⊓ 10) = 5 := by
    rw [inf_eq_min]
    exact min_eq_left (by norm_num)
  have hmax : ((5 : ℚ) ⊔ 10) = 10 := by
    rw [sup_eq_max]
    exact max_eq_right (by norm_num)
  simp [graphStats, hf, listMin, listMax]
  rw [hmin, hmax]
  norm_num [round2]

/-- C4 counterexample: a non-empty store result need not yield a success
envelope — a record whose value is non-numeric makes `float()` raise, and
the flat-list query answers with the 500 envelope instead of status 1. -/
theorem claim4_counterexample :
    ([⟨"PM1", RawValue.nonNumeric, 0⟩] : List Rec) ≠ [] ∧
    processAggregatedQuery "1h" "node1" [⟨"PM1", RawValue.nonNumeric, 0⟩] =
      .error serverErr ∧
    serverErr.code = 500 :=
  ⟨by simp, rfl, rfl⟩

/-- C4 (amended): an empty store result always yields the 404 not-found
error, never a success with an empty array; a non-empty result yields the
status-1 success envelope provided every record value converts to a float
(absent or numeric); and every success envelope has status 1 and non-empty
data. -/
theorem claim4_amended :
    (∀ period node : String, processAggregatedQuery period node [] =
      .error ⟨404, "ไม่พบข้อมูลสำหรับช่วงเวลา " ++ period⟩) ∧
    (∀ (period node : String) (recs : List Rec), recs ≠ [] →
      (∀ r ∈ recs, r.value ≠ RawValue.nonNumeric) →
      ∃ resp, processAggregatedQuery period node recs = .ok resp ∧
        resp.status = 1 ∧ resp.data.length = recs.length) ∧
    (∀ (period node : String) (recs : List Rec) (resp : FlatResponse),
      processAggregatedQuery period node recs = .ok resp →
      resp.status = 1 ∧ resp.data ≠ []) :=
  ⟨processAggregatedQuery_nil, processAggregatedQuery_ok_of, processAggregatedQuery_ok_inv⟩

/-- C4 amended, witness: one numeric record yields a status-1 envelope with
one data point. -/
theorem claim4_amended_witness :
    ([⟨"PM1", RawValue.num 5, 0⟩] : List Rec) ≠ [] ∧
    (∀ r ∈ ([⟨"PM1", RawValue.num 5, 0⟩] : List Rec),
      r.value ≠ RawValue.nonNumeric) ∧
    ∃ resp, processAggregatedQuery "1h" "node1" [⟨"PM1", RawValue.num 5, 0⟩] =
      .ok resp ∧ resp.status = 1 ∧ resp.data.length = 1 := by
  refine ⟨by simp, by decide, ?_⟩
  obtain ⟨resp, hr1, hr2, hr3⟩ :=
    claim4_amended.2.1 "1h" "node1" [⟨"PM1", RawValue.num 5, 0⟩] (by simp) (by decide)
  exact ⟨resp, hr1, hr2, hr3⟩

/-- C5: the shared sanitiser of the daily-summary, hourly-summary and graph
endpoints always returns a non-negative value with at most two decimals;
NaN, +Inf, -Inf, absent, non-numeric and negative inputs all yield `0.0`,
and non-negative finite inputs are rounded to two decimals. -/
theorem claim5_sanitize :
    (∀ v : RawValue, 0 ≤ sanitize v ∧ ∃ n : ℤ, sanitize v = (n : ℚ) / 100) ∧
    sanitize .nan = 0 ∧ sanitize .inf = 0 ∧ sanitize .ninf = 0 ∧
    sanitize .absent = 0 ∧ sanitize .nonNumeric = 0 ∧
    (∀ q : ℚ, q < 0 → sanitize (.num q) = 0) ∧
    (∀ q : ℚ, 0 ≤ q → sanitize (.num q) = round2 q) := by
  refine ⟨fun v => ⟨sanitize_nonneg v, sanitize_hundredths v⟩,
    rfl, rfl, rfl, rfl, rfl, ?_, ?_⟩
  · intro q h
    simp [sanitize, if_pos h]
  · intro q h
    simp [sanitize, if_neg (not_lt.mpr h)]

/-- C5 witness at `q = -3` and `q = 7`. -/
theorem claim5_sanitize_witness :
    (-3 : ℚ) < 0 ∧ sanitize (.num (-3)) = 0 ∧
    (0 : ℚ) ≤ 7 ∧ sanitize (.num 7) = round2 7 :=
  ⟨by norm_num, claim5_sanitize.2.2.2.2.2.2.1 (-3) (by norm_num), by norm_num,
    claim5_sanitize.2.2.2.2.2.2.2 7 (by norm_num)⟩

/-- C10: for a valid time range and data type, when no record's sanitised
value is strictly positive (in particular when the store result is empty)
the graph endpoint still returns a status-1 success envelope carrying the
(possibly empty) data array and all-zero statistics; and every error the
endpoint can return is a 400 validation error — never a 404. -/
theorem claim10_graph_no_positive :
    (∀ (node tr dt : String) (recs : List Rec),
      tr ∈ valid_time_ranges → dt ∈ valid_data_types →
      (∀ r ∈ recs, ¬ 0 < sanitize r.value) →
      ∃ resp, getGraphData node tr dt recs = .ok resp ∧ resp.status = 1 ∧
        resp.statistics = ⟨0, 0, 0, 0⟩ ∧ resp.data = recs.map (graphPoint tr) ∧
        resp.total_points = recs.length) ∧
    (∀ (node tr dt : String) (recs : List Rec) (e : ErrResp),
      getGraphData node tr dt recs = .error e → e.code = 400) := by
  constructor
  · intro node tr dt recs h1 h2 h3
    refine ⟨_, getGraphData_eq node tr dt recs h1 h2, rfl, ?_, rfl, by simp⟩
    apply graphStats_zero
    intro v hv
    simp only [List.map_map, List.mem_map, Function.comp] at hv
    obtain ⟨r, hr, rfl⟩ := hv
    exact h3 r hr
  · intro node tr dt recs e h
    exact getGraphData_error_code node tr dt recs e h

/-- C10 witness: the empty store result for a valid range and type. -/
theorem claim10_graph_no_positive_witness :
    ("24h" ∈ valid_time_ranges) ∧ ("AQI" ∈ valid_data_types) ∧
    ∃ resp, getGraphData "node1" "24h" "AQI" [] = .ok resp ∧
      resp.statistics = ⟨0, 0, 0, 0⟩ := by
  refine ⟨by decide, by decide, ?_⟩
  obtain ⟨resp, hr1, _, hr3, _, _⟩ :=
    claim10_graph_no_positive.1 "node1" "24h" "AQI" [] (by decide) (by decide)
      (by simp)
  exact ⟨resp, hr1, hr3⟩

/-! ### Summary grouping: keys of the accumulator -/

lemma any_fst_eq {α β : Type} [DecidableEq α] (l : List (α × β)) (k : α) :
    (l.any fun p => p.1 == k) = true ↔ k ∈ l.map Prod.fst := by
  simp only [List.any_eq_true, beq_iff_eq, List.mem_map]

lemma keys_upsert (labelOf : Rec → ℤ) (acc : Table) (r : Rec) :
    (upsertRec labelOf acc r).map Prod.fst =
      if labelOf r ∈ acc.map Prod.fst then acc.map Prod.fst
      else acc.map Prod.fst ++ [labelOf r] := by
  unfold upsertRec
  by_cases h : labelOf r ∈ acc.map Prod.fst
  · rw [if_pos ((any_fst_eq acc (labelOf r)).mpr h), if_pos h, List.map_map]
    apply List.map_congr_left
    intro p hp
    by_cases hpk : p.1 = labelOf r
    · simp [Function.comp, hpk]
    · simp [Function.comp, hpk]
  · rw [if_neg (fun hc => h ((any_fst_eq acc (labelOf r)).mp hc)), if_neg h]
    simp

lemma mem_keys_upsert (labelOf : Rec → ℤ) (acc : Table) (r : Rec) (k : ℤ) :
    k ∈ (upsertRec labelOf acc r).map Prod.fst ↔
      k ∈ acc.map Prod.fst ∨ k = labelOf r := by
  rw [keys_upsert]
  split_ifs with h
  · constructor
    · exact Or.inl
    · rintro (hk | rfl)
      · exact hk
      · exact h
  · simp

lemma nodup_keys_foldl (labelOf : Rec → ℤ) (recs : List Rec) :
    ∀ acc : Table, (acc.map Prod.fst).Nodup →
      ((recs.foldl (upsertRec labelOf) acc).map Prod.fst).Nodup := by
  induction recs with
  | nil => intro acc h; simpa using h
  | cons r rs ih =>
    intro acc h
    rw [List.foldl_cons]
    apply ih
    rw [keys_upsert]
    split_ifs with hm
    · exact h
    · refine List.nodup_append.mpr ⟨h, List.nodup_singleton _, ?_⟩
      intro a ha hb
      rw [List.mem_singleton] at hb
      exact hm (hb ▸ ha)

lemma mem_keys_foldl (labelOf : Rec → ℤ) (recs : List Rec) :
    ∀ (acc : Table) (k : ℤ),
      k ∈ (recs.foldl (upsertRec labelOf) acc).map Prod.fst ↔
        k ∈ acc.map Prod.fst ∨ ∃ r ∈ recs, labelOf r = k := by
  induction recs with
  | nil => intro acc k; simp
  | cons r rs ih =>
    intro acc k
    rw [List.foldl_cons, ih, mem_keys_upsert]
    constructor
    · rintro ((hk | rfl) | ⟨r', hr', hk⟩)
      · exact Or.inl hk
      · exact Or.inr ⟨r, List.mem_cons_self r rs, rfl⟩
      · exact Or.inr ⟨r', List.mem_cons_of_mem r hr', hk⟩
    · rintro (hk | ⟨r', hr', hk⟩)
      · exact Or.inl (Or.inl hk)
      · rcases List.mem_cons.mp hr' with rfl | hr''
        · exact Or.inl (Or.inr hk.symm)
        · exact Or.inr ⟨r', hr'', hk⟩

lemma mem_keys_build (labelOf : Rec → ℤ) (recs : List Rec) (k : ℤ) :
    k ∈ (buildSummary labelOf recs).map Prod.fst ↔ ∃ r ∈ recs, labelOf r = k := by
  unfold buildSummary
  rw [mem_keys_foldl]
  simp

/-! ### Summary grouping: provenance of row fields -/

lemma mem_setField {row : Row} {g f : String} {w v : ℚ}
    (h : (f, v) ∈ setField row g w) : (∃ u, (f, u) ∈ row) ∨ f = g := by
  unfold setField at h
  split_ifs at h with hc
  · rcases List.mem_map.mp h with ⟨p, hp, he⟩
    by_cases hpg : p.1 = g
    · simp only [hpg, beq_self_eq_true, if_true] at he
      exact Or.inr (congrArg Prod.fst he.symm)
    · simp only [beq_iff_eq, hpg, if_false] at he
      exact Or.inl ⟨v, he ▸ hp⟩
  · rcases List.mem_append.mp h with h1 | h1
    · exact Or.inl ⟨v, h1⟩
    · rw [List.mem_singleton] at h1
      exact Or.inr (congrArg Prod.fst h1)

lemma upsert_prov (labelOf : Rec → ℤ) (Q : ℤ → String → Prop) (acc : Table) (r : Rec)
    (hacc : ∀ p ∈ acc, ∀ f v, (f, v) ∈ p.2 → Q p.1 f)
    (hr : Q (labelOf r) r.field) :
    ∀ p ∈ upsertRec labelOf acc r, ∀ f v, (f, v) ∈ p.2 → Q p.1 f := by
  unfold upsertRec
  split_ifs with hc
  · intro p hp f v hfv
    rcases List.mem_map.mp hp with ⟨q, hq, he⟩
    by_cases hqk : q.1 = labelOf r
    · simp only [hqk, beq_self_eq_true, if_true] at he
      rw [← he] at hfv
      rcases mem_setField hfv with ⟨u, hu⟩ | hf
      · rw [← he]
        have := hacc q hq f u hu
        rw [hqk] at this
        exact this
      · rw [← he, hf]
        exact hr
    · simp only [beq_iff_eq, hqk, if_false] at he
      rw [← he] at hfv ⊢
      exact hacc q hq f v hfv
  · intro p hp f v hfv
    rcases List.mem_append.mp hp with h1 | h1
    · exact hacc p h1 f v hfv
    · rw [List.mem_singleton] at h1
      subst h1
      have hfv' : (f, v) ∈ setField ([] : Row) r.field (sanitize r.value) := hfv
      rcases mem_setField hfv' with ⟨u, hu⟩ | hf
      · simp at hu
      · rw [hf]
        exact hr

lemma foldl_prov (labelOf : Rec → ℤ) (Q : ℤ → String → Prop) (recs : List Rec) :
    ∀ acc : Table,
      (∀ p ∈ acc, ∀ f v, (f, v) ∈ p.2 → Q p.1 f) →
      (∀ r ∈ recs, Q (labelOf r) r.field) →
      ∀ p ∈ recs.foldl (upsertRec labelOf) acc, ∀ f v, (f, v) ∈ p.2 → Q p.1 f := by
  induction recs with
  | nil => intro acc hacc _; simpa using hacc
  | cons r rs ih =>
    intro acc hacc hQ
    rw [List.foldl_cons]
    exact ih _ (upsert_prov labelOf Q acc r hacc (hQ r (List.mem_cons_self r rs)))
      (fun x hx => hQ x (List.mem_cons_of_mem r hx))

lemma build_prov (labelOf : Rec → ℤ) (recs : List Rec) :
    ∀ p ∈ buildSummary labelOf recs, ∀ f v, (f, v) ∈ p.2 →
      ∃ r ∈ recs, labelOf r = p.1 ∧ r.field = f := by
  intro p hp f v hfv
  exact foldl_prov labelOf (fun k g => ∃ r ∈ recs, labelOf r = k ∧ r.field = g) recs
    [] (by simp) (fun r hr => ⟨r, hr, rfl, rfl⟩) p hp f v hfv

/-! ### Looking rows up again -/

lemma getField_eq_zero {row : Row} {f : String} (h : ∀ u, (f, u) ∉ row) :
    getField row f = 0 := by
  unfold getField
  cases hf : row.find? (fun p => p.1 == f) with
  | none => rfl
  | some p =>
    exfalso
    have hp : p.1 = f := by simpa using List.find?_some hf
    have hm : p ∈ row := List.mem_of_find?_eq_some hf
    apply h p.2
    rw [← hp]
    exact hm

lemma lookupRow_mem (t : Table) (k : ℤ) :
    lookupRow t k = [] ∨ (k, lookupRow t k) ∈ t := by
  unfold lookupRow
  cases hf : t.find? (fun p => p.1 == k) with
  | none => exact Or.inl rfl
  | some p =>
    right
    have hp : p.1 = k := by simpa using List.find?_some hf
    have hm : p ∈ t := List.mem_of_find?_eq_some hf
    rw [← hp]
    exact hm

/-! ### Properties of the emitted summary rows -/

lemma summaryRows_labels (labelOf : Rec → ℤ) (recs : List Rec) :
    (summaryRows labelOf recs).map SummaryRow.label =
      List.insertionSort (· ≤ ·) ((buildSummary labelOf recs).map Prod.fst) := by
  unfold summaryRows
  rw [List.map_map]
  have h : (SummaryRow.label ∘ mkSummaryRow (buildSummary labelOf recs)) = id := rfl
  rw [h, List.map_id]

lemma labels_sorted (labelOf : Rec → ℤ) (recs : List Rec) :
    ((summaryRows labelOf recs).map SummaryRow.label).Sorted (· < ·) := by
  rw [summaryRows_labels]
  exact List.Sorted.lt_of_le (List.sorted_insertionSort _ _)
    ((List.perm_insertionSort _ _).symm.nodup
      (nodup_keys_foldl labelOf recs [] (by simp)))

lemma mem_summary_rows (labelOf : Rec → ℤ) (recs : List Rec) (row : SummaryRow)
    (hrow : row ∈ summaryRows labelOf recs) :
    row = mkSummaryRow (buildSummary labelOf recs) row.label ∧
      ∃ r ∈ recs, labelOf r = row.label := by
  unfold summaryRows at hrow
  rcases List.mem_map.mp hrow with ⟨k, hk, rfl⟩
  have hk' : k ∈ (buildSummary labelOf recs).map Prod.fst :=
    (List.perm_insertionSort _ _).mem_iff.mp hk
  exact ⟨rfl, (mem_keys_build labelOf recs k).mp hk'⟩

lemma summary_exists_row (labelOf : Rec → ℤ) (recs : List Rec) (k : ℤ)
    (h : ∃ r ∈ recs, labelOf r = k) :
    ∃ row ∈ summaryRows labelOf recs, row.label = k := by
  have hk : k ∈ (buildSummary labelOf recs).map Prod.fst :=
    (mem_keys_build labelOf recs k).mpr h
  have hk2 : k ∈ List.insertionSort (· ≤ ·) ((buildSummary labelOf recs).map Prod.fst) :=
    (List.perm_insertionSort _ _).mem_iff.mpr hk
  exact ⟨mkSummaryRow (buildSummary labelOf recs) k, List.mem_map.mpr ⟨k, hk2, rfl⟩, rfl⟩

lemma summary_row_fields (labelOf : Rec → ℤ) (recs : List Rec) (row : SummaryRow)
    (h : row ∈ summaryRows labelOf recs) :
    row.fields.map Prod.fst = canonicalFields := by
  unfold summaryRows at h
  rcases List.mem_map.mp h with ⟨k, _, rfl⟩
  unfold mkSummaryRow
  rw [List.map_map]
  have h2 : (Prod.fst ∘ fun f =>
      (f, getField (lookupRow (buildSummary labelOf recs) k) f)) = id := rfl
  rw [h2, List.map_id]

lemma summary_row_default (labelOf : Rec → ℤ) (recs : List Rec) (row : SummaryRow)
    (hrow : row ∈ summaryRows labelOf recs) (f : String) (hf : f ∈ canonicalFields)
    (hno : ∀ r ∈ recs, ¬(labelOf r = row.label ∧ r.field = f)) :
    (f, (0 : ℚ)) ∈ row.fields := by
  unfold summaryRows at hrow
  rcases List.mem_map.mp hrow with ⟨k, _, rfl⟩
  have hz : getField (lookupRow (buildSummary labelOf recs) k) f = 0 := by
    apply getField_eq_zero
    intro u hu
    rcases lookupRow_mem (buildSummary labelOf recs) k with he | hm
    · rw [he] at hu
      simp at hu
    · rcases build_prov labelOf recs _ hm f u hu with ⟨r, hr, hlr, hfr⟩
      exact hno r hr ⟨hlr, hfr⟩
  have hmem : (f, getField (lookupRow (buildSummary labelOf recs) k) f) ∈
      (mkSummaryRow (buildSummary labelOf recs) k).fields :=
    List.mem_map.mpr ⟨f, hf, rfl⟩
  rw [hz] at hmem
  exact hmem

/-! ### Claims C6 and C7 -/

/-- C6 counterexample: the daily-summary label of a record stored at
1970-01-01T20:00:00Z is the UTC date (epoch day 0), not the Asia/Bangkok
date (epoch day 1, since Bangkok is 7 hours ahead) — so the daily path does
not format its labels in Asia/Bangkok as the claim states for all paths. -/
theorem claim6_counterexample :
    (dailySummaryRows [⟨"CO2", RawValue.num 5, 72000⟩]).map SummaryRow.label =
      [utcDay 72000] ∧
    utcDay 72000 = 0 ∧
    utcDay (72000 + bangkokOffset) = 1 ∧
    (dailySummaryRows [⟨"CO2", RawValue.num 5, 72000⟩]).map SummaryRow.label ≠
      [utcDay (72000 + bangkokOffset)] :=
  ⟨by decide, by decide, by decide, by decide⟩

/-- C6 (amended): only the flat-list path converts the store timestamp to
Asia/Bangkok before formatting; the daily-summary, hourly-summary and graph
labels are formatted from the store's UTC instant with no timezone shift;
and the month-window boundaries passed to the store are the UTC civil
instants themselves. -/
theorem claim6_amended :
    (∀ (r : Rec) (q : ℚ), r.value = RawValue.num q →
      flatPoint r = .ok ⟨r.field, .finite (round2 q), r.time + bangkokOffset⟩) ∧
    (∀ recs : List Rec, ∀ row ∈ dailySummaryRows recs,
      ∃ r ∈ recs, row.label = utcDay r.time) ∧
    (∀ recs : List Rec, ∀ row ∈ hourlySummaryRows recs,
      ∃ r ∈ recs, row.label = utcMinuteOfDay r.time) ∧
    (∀ (tr : String) (recs : List Rec), ∀ p ∈ recs.map (graphPoint tr),
      ∃ r ∈ recs, p.time = graphTimeLabel tr r.time ∧ p.timestamp = r.time) ∧
    (∀ y m : ℕ, dailyQueryRange y m = (monthStart y m, monthStop y m)) := by
  refine ⟨?_, ?_, ?_, ?_, fun y m => rfl⟩
  · intro r q hq
    simp [flatPoint, hq, flatValue]
  · intro recs row hrow
    obtain ⟨r, hr, hl⟩ := (mem_summary_rows dailyLabel recs row hrow).2
    exact ⟨r, hr, hl.symm⟩
  · intro recs row hrow
    obtain ⟨r, hr, hl⟩ := (mem_summary_rows hourlyLabel recs row hrow).2
    exact ⟨r, hr, hl.symm⟩
  · intro tr recs p hp
    rcases List.mem_map.mp hp with ⟨r, hr, rfl⟩
    exact ⟨r, hr, rfl, rfl⟩

/-- C6 amended, witness at a concrete record. -/
theorem claim6_amended_witness :
    (⟨"CO2", RawValue.num 5, 72000⟩ : Rec).value = RawValue.num 5 ∧
    flatPoint ⟨"CO2", RawValue.num 5, 72000⟩ =
      .ok ⟨"CO2", .finite (round2 5), 72000 + bangkokOffset⟩ :=
  ⟨rfl, claim6_amended.1 ⟨"CO2", RawValue.num 5, 72000⟩ 5 rfl⟩

/-- C7: daily and hourly summary rows carry the sensor fields in the fixed
canonical order AQI, PM1, PM2_5, PM4, PM10, CO2, temperature, humidity; the
row labels are strictly ascending (so sorted, with exactly one row per
distinct label); a label appears iff some record bears it — for every store
result, whatever its arrival order; and a canonical field with no record
for a row's label is emitted as 0.0. -/
theorem claim7_summary_rows : ∀ recs : List Rec,
    (∀ row ∈ dailySummaryRows recs, row.fields.map Prod.fst = canonicalFields) ∧
    (∀ row ∈ hourlySummaryRows recs, row.fields.map Prod.fst = canonicalFields) ∧
    ((dailySummaryRows recs).map SummaryRow.label).Sorted (· < ·) ∧
    ((hourlySummaryRows recs).map SummaryRow.label).Sorted (· < ·) ∧
    (∀ k : ℤ, (∃ row ∈ dailySummaryRows recs, row.label = k) ↔
      ∃ r ∈ recs, utcDay r.time = k) ∧
    (∀ k : ℤ, (∃ row ∈ hourlySummaryRows recs, row.label = k) ↔
      ∃ r ∈ recs, utcMinuteOfDay r.time = k) ∧
    (∀ row ∈ dailySummaryRows recs, ∀ f ∈ canonicalFields,
      (∀ r ∈ recs, ¬(utcDay r.time = row.label ∧ r.field = f)) →
      (f, (0 : ℚ)) ∈ row.fields) ∧
    (∀ row ∈ hourlySummaryRows recs, ∀ f ∈ canonicalFields,
      (∀ r ∈ recs, ¬(utcMinuteOfDay r.time = row.label ∧ r.field = f)) →
      (f, (0 : ℚ)) ∈ row.fields) := by
  intro recs
  refine ⟨fun row h => summary_row_fields dailyLabel recs row h,
    fun row h => summary_row_fields hourlyLabel recs row h,
    labels_sorted dailyLabel recs, labels_sorted hourlyLabel recs,
    ?_, ?_, ?_, ?_⟩
  · intro k
    constructor
    · rintro ⟨row, hrow, rfl⟩
      exact (mem_summary_rows dailyLabel recs row hrow).2
    · exact summary_exists_row dailyLabel recs k
  · intro k
    constructor
    · rintro ⟨row, hrow, rfl⟩
      exact (mem_summary_rows hourlyLabel recs row hrow).2
    · exact summary_exists_row hourlyLabel recs k
  · exact fun row hrow f hf hno => summary_row_default dailyLabel recs row hrow f hf hno
  · exact fun row hrow f hf hno => summary_row_default hourlyLabel recs row hrow f hf hno

/-- C7 witness: one CO2 record yields a daily row with the canonical field
order and AQI defaulted to 0.0. -/
theorem claim7_summary_rows_witness :
    ∃ row ∈ dailySummaryRows [⟨"CO2", RawValue.num 5, 0⟩],
      row.fields.map Prod.fst = canonicalFields ∧ ("AQI", (0 : ℚ)) ∈ row.fields := by
  have h := claim7_summary_rows [⟨"CO2", RawValue.num 5, 0⟩]
  obtain ⟨row, hrow, hlab⟩ := (h.2.2.2.2.1 0).mpr
    ⟨⟨"CO2", RawValue.num 5, 0⟩, List.mem_singleton.mpr rfl, by decide⟩
  refine ⟨row, hrow, h.1 row hrow, ?_⟩
  apply h.2.2.2.2.2.2.1 row hrow "AQI" (by decide)
  intro r hr
  rw [List.mem_singleton] at hr
  subst hr
  rintro ⟨h1, h2⟩
  exact absurd h2 (by decide)

/-! ### Calendar arithmetic -/

lemma isLeap_iff (y : ℕ) :
    isLeap y = true ↔ ((y % 4 = 0 ∧ y % 100 ≠ 0) ∨ y % 400 = 0) := by
  simp [isLeap, Bool.or_eq_true, Bool.and_eq_true, beq_iff_eq, bne_iff_ne]

lemma daysBeforeMonth_succ (y m : ℕ) (h1 : 1 ≤ m) (h2 : m ≤ 11) :
    daysBeforeMonth y (m + 1) = daysBeforeMonth y m + daysInMonth y m := by
  interval_cases m <;> cases h : isLeap y <;>
    simp [daysBeforeMonth, daysInMonth, h]

set_option maxHeartbeats 1600000 in
lemma daysBeforeYear_succ (y : ℕ) (hy : 1 ≤ y) :
    daysBeforeYear (y + 1) =
      daysBeforeYear y + 365 + (if isLeap y then 1 else 0) := by
  cases h : isLeap y with
  | false =>
    have hP : ¬((y % 4 = 0 ∧ y % 100 ≠ 0) ∨ y % 400 = 0) := by
      rw [← isLeap_iff, h]
      simp
    rw [if_neg (by simp)]
    unfold daysBeforeYear
    omega
  | true =>
    have hP : (y % 4 = 0 ∧ y % 100 ≠ 0) ∨ y % 400 = 0 := by
      rw [← isLeap_iff]
      exact h
    rw [if_pos rfl]
    unfold daysBeforeYear
    omega

/-! ### Claims C8 and C9 -/

/-- C8: the month token resolves to the window from the first instant of
the month to its last instant inclusive of the final second (December
rolling into January 1 of the next year minus one second), and the date
token resolves to the window from the start of the day to the start of the
next day minus one second. -/
theorem claim8_window_resolution :
    ∀ y m : ℕ, 1 ≤ y → 1 ≤ m → m ≤ 12 →
      monthStart y m = toSecs y m 1 0 0 0 ∧
      monthStop y m = toSecs y m (daysInMonth y m) 23 59 59 ∧
      (∀ d : ℕ, dateStart y m d = toSecs y m d 0 0 0 ∧
        dateStop y m d = toSecs y m (d + 1) 0 0 0 - 1) := by
  intro y m hy h1 h12
  refine ⟨rfl, ?_, fun d => ⟨rfl, ?_⟩⟩
  · by_cases hm : m = 12
    · subst hm
      unfold monthStop
      rw [if_pos rfl]
      unfold toSecs
      simp only [daysBeforeMonth, daysInMonth]
      rw [daysBeforeYear_succ y hy]
      push_cast
      ring
    · have hm' : m ≤ 11 := by omega
      unfold monthStop
      rw [if_neg hm]
      unfold toSecs
      rw [daysBeforeMonth_succ y m h1 hm']
      push_cast
      ring
  · unfold dateStop dateStart toSecs
    push_cast
    ring

/-- C8 witness: December 2024 and 2024-03-10. -/
theorem claim8_window_resolution_witness :
    (1 : ℕ) ≤ 2024 ∧ (1 : ℕ) ≤ 12 ∧ (12 : ℕ) ≤ 12 ∧
    monthStop 2024 12 = toSecs 2024 12 (daysInMonth 2024 12) 23 59 59 ∧
    dateStop 2024 3 10 = toSecs 2024 3 (10 + 1) 0 0 0 - 1 := by
  refine ⟨by norm_num, by norm_num, le_refl 12, ?_, ?_⟩
  · exact (claim8_window_resolution 2024 12 (by norm_num) (by norm_num)
      (by norm_num)).2.1
  · exact ((claim8_window_resolution 2024 3 (by norm_num) (by norm_num)
      (by norm_num)).2.2 10).2

/-- C9: every date string the strptime model rejects makes the
hourly-summary endpoint return the 400 validation envelope whose message
names the expected YYYY-MM-DD format (no other outcome is possible on that
path), and in particular "2024-13-40" is rejected. -/
theorem claim9_malformed_date :
    (∀ (node date : String) (recs : List Rec), parseDate date = none →
      getHourlySummary node date recs = .error hourlyDateError) ∧
    hourlyDateError.code = 400 ∧
    (∃ pre post : String,
      hourlyDateError.message = pre ++ "YYYY-MM-DD" ++ post) ∧
    parseDate "2024-13-40" = none := by
  refine ⟨?_, rfl, ⟨"รูปแบบวันที่ไม่ถูกต้อง ใช้ ", "", by decide⟩, by decide⟩
  intro node date recs h
  unfold getHourlySummary
  rw [h]

/-- C9 witness at the malformed date "2024-13-40". -/
theorem claim9_malformed_date_witness :
    parseDate "2024-13-40" = none ∧
    getHourlySummary "node1" "2024-13-40" [] = .error hourlyDateError := by
  refine ⟨by decide, ?_⟩
  exact claim9_malformed_date.1 "node1" "2024-13-40" [] (by decide)

end AqiRoutes
